import Mathlib

/-!
Verification development for the `hurlea_av1_hls` repository (three Python
scripts: `encode_hls_av1.py`, `script.py`, `scan_to_encode.py`).

The scripts orchestrate external `ffmpeg`/`ffprobe` processes to build an HLS
adaptive-bitrate package.  The shallow embedding below translates the
repository's decision logic into Lean:

* pure functions (`select_audio_codec`, `compute_scaled_size_from_width`,
  `compute_scaled_width`, the ladder planning in `main`, the progress-line
  computation in `run_ffmpeg_with_progress`, `write_master_header`) become
  Lean functions;
* the outcomes of external process invocations (ffmpeg succeeding or failing,
  an extracted file existing and being non-empty) are passed in explicitly as
  environment parameters, so that each code path of the Python control flow is
  represented;
* Python exceptions that escape a function are modelled with `Except`/`Option`.

Numeric caveat: the Python scripts compute scaling ratios and progress
percentages in IEEE-754 doubles.  The embedding uses exact arithmetic
(`Nat` division for `int(...)` truncation of a non-negative value, `ℚ` for the
progress formulas and for Python's `round`).  Concrete counterexample inputs
are chosen so that the double-precision computation of the source is exact
(power-of-two denominators), hence agrees with the exact-arithmetic model.
-/

/-- One probed stream, as returned by `ffprobe_streams` (a read-only snapshot
of the JSON stream descriptor).  `lang`/`title` model `tags.language` /
`tags.title` (`none` = tag absent); `width`/`height` are meaningful for video
streams only. -/
structure SourceStream where
  index : Nat
  codec_type : String
  codec_name : String
  lang : Option String
  title : Option String
  width : Nat
  height : Nat
deriving DecidableEq

/-- Configured audio bitrate (`AUDIO_BITRATE = "128k"` in `encode_hls_av1.py`). -/
def AUDIO_BITRATE : String := "128k"

/-- The `LADDER` table of `encode_hls_av1.py`: label -> target width,
in dict insertion order. -/
def LADDER : List (String × Nat) :=
  [("480p", 854), ("720p", 1280), ("1080p", 1920), ("1440p", 2560), ("2160p", 3840)]

/-- The `BITRATES` table of `encode_hls_av1.py`: label -> bitrate string. -/
def BITRATES : List (String × String) :=
  [("480p", "750k"), ("720p", "1500k"), ("1080p", "3500k"),
   ("1440p", "6000k"), ("2160p", "12000k")]

/-- Total lookup into `BITRATES`.  In the source, `BITRATES[label]` would raise
`KeyError` for a label outside the table; `main` only ever looks up labels of
`LADDER`, which coincide with the `BITRATES` keys, so the `getD` default is
never reached on the source's own configuration. -/
def bitrateOfLabel (label : String) : String :=
  (BITRATES.lookup label).getD "0k"

/-- Python `str.lower()` at the character level (`String.toLower` of the
standard library computes the same string; this form reduces in the kernel). -/
def pyLower (s : String) : String := String.mk (s.toList.map Char.toLower)

/-- Result of `select_audio_codec`: the dict `{"codec": ..., "bitrate": ...}`
(`bitrate = none` models Python `None`). -/
structure AudioConfig where
  codec : String
  bitrate : Option String
deriving DecidableEq

/-- `select_audio_codec(stream)` of `encode_hls_av1.py`: decide the output
audio codec from the (lower-cased) source codec name.
`stream.get("codec_name", "")` is the `codec_name` field; a container with the
tag missing is represented by `codec_name = ""` (which lands in the fallback
arm, exactly as in the source). -/
def select_audio_codec (stream : SourceStream) : AudioConfig :=
  let codec := pyLower stream.codec_name
  if codec = "aac" ∨ codec = "ac3" ∨ codec = "eac3" then
    { codec := "copy", bitrate := none }
  else if codec = "truehd" then
    { codec := "eac3", bitrate := some "1536k" }
  else if codec = "dts" ∨ codec = "dts_hd_ma" ∨ codec = "dts-ma" ∨ codec = "dts-hd" then
    { codec := "eac3", bitrate := some "896k" }
  else
    { codec := "eac3", bitrate := some "640k" }

/-- `sanitize(text)` of `encode_hls_av1.py`: keep alphanumeric characters and
`-`/`_`, replace everything else by `_`. -/
def sanitize (text : String) : String :=
  String.mk (text.toList.map fun c =>
    if c.isAlphanum ∨ c = '-' ∨ c = '_' then c else '_')

/-- `compute_scaled_size_from_width(src_w, src_h, target_w)` of
`encode_hls_av1.py`.  When `target_w >= src_w` the source dimensions are
returned unchanged.  Otherwise `scaled_h = int(src_h * (target_w / src_w))`:
for non-negative operands, `int` truncation of the exact quotient is `Nat`
division (the source computes the quotient in doubles; on the concrete inputs
used below the double computation is exact).  Then `scaled_h` is bumped to the
next integer if odd. -/
def compute_scaled_size_from_width (src_w src_h target_w : Nat) : Nat × Nat :=
  if src_w ≤ target_w then (src_w, src_h)
  else
    let scaled_h := src_h * target_w / src_w
    let scaled_h2 := if scaled_h % 2 ≠ 0 then scaled_h + 1 else scaled_h
    (target_w, scaled_h2)

/-- Python 3 `round` on an exact rational value: round half to even. -/
def roundHalfEven (q : ℚ) : ℤ :=
  let n := ⌊q⌋
  let frac := q - (n : ℚ)
  if frac < 1/2 then n
  else if 1/2 < frac then n + 1
  else if n % 2 = 0 then n else n + 1

/-- `compute_scaled_width(src_w, src_h, target_h)` of `script.py`:
`w = int(round((target_h * src_w) / src_h))` then `w += 1` if odd.
The quotient is modelled exactly in `ℚ` and `round` as round-half-to-even
(Python 3 banker's rounding); `int` of an `int` is the identity. -/
def compute_scaled_width (src_w src_h target_h : Nat) : ℤ :=
  let w := roundHalfEven (((target_h * src_w : Nat) : ℚ) / (src_h : ℚ))
  if w % 2 = 1 then w + 1 else w

/-- Modelled from the spec: the spec's formula for the companion dimension of
a planned rung, "`scaled = round(targetDimension * otherSourceDimension /
sourceDimension)`, then rounded up to the nearest even integer".  This
definition follows the spec's words (nearest-integer rounding, Python tie
rule), to be compared against the source functions above. -/
def specCompanionDim (sourceDim otherDim targetDim : Nat) : ℤ :=
  let r := roundHalfEven (((targetDim * otherDim : Nat) : ℚ) / (sourceDim : ℚ))
  if r % 2 = 0 then r else r + 1

/-- Stable insertion of a rung into a value-sorted rung list (helper for
modelling Python's stable `sorted(..., key=lambda x: x[1])`). -/
def insertRung (r : String × Nat) : List (String × Nat) → List (String × Nat)
  | [] => [r]
  | x :: xs => if r.2 ≤ x.2 then r :: x :: xs else x :: insertRung r xs

/-- `sorted(rungs.items(), key=lambda x: x[1])`: stable sort of the rung table
by target dimension. -/
def sortRungs : List (String × Nat) → List (String × Nat)
  | [] => []
  | r :: rs => insertRung r (sortRungs rs)

/-- The rungs the video loop of `main` actually processes: the configured
table sorted ascending by target dimension, minus every rung whose target
exceeds the source dimension (`if target_w > src_w: continue`). -/
def planLadder (rungs : List (String × Nat)) (src_w : Nat) : List (String × Nat) :=
  (sortRungs rungs).filter (fun r => r.2 ≤ src_w)

/-- One entry of the list built by `generate_audio_playlists`
(`{"type": "audio", "index": ..., "lang": ..., "playlist": ..., "name": ...}`).
`playlist` is stored as the path relative to the output root (the master
manifest lives in the output root, so `os.path.relpath` against the master's
directory yields exactly this string). -/
structure AudioEntry where
  index : Nat
  lang : String
  playlist : String
  name : String
deriving DecidableEq

/-- Outcomes of the external ffmpeg invocations made for one audio stream:
`firstOk` is whether the first `run_ffmpeg_with_progress` call succeeds
(no `CalledProcessError`), `secondOk` the second call, when one is made. -/
structure AudioOutcome where
  firstOk : Bool
  secondOk : Bool
deriving DecidableEq

/-- One ffmpeg audio invocation as built by `build_cmd(audio_codec,
audio_bitrate)`: the `-c:a` codec and the optional `-b:a` bitrate. -/
structure AudioAttempt where
  codec : String
  bitrate : Option String
deriving DecidableEq

/-- The entry appended by `generate_audio_playlists` on success. -/
def mkAudioEntry (idx : Nat) (lang : String) : AudioEntry :=
  { index := idx
    lang := lang
    playlist := "audio/audio_" ++ toString idx ++ "_" ++ lang ++ "/audio_"
      ++ toString idx ++ "_" ++ lang ++ ".m3u8"
    name := if lang ≠ "und" then "Audio " ++ lang else "Audio " ++ toString idx }

/-- Loop body of `generate_audio_playlists` for one audio stream.  Returns the
ordered list of ffmpeg invocations performed and the entry appended (if any).
Control flow of the source: `select_audio_codec` picks the strategy; for
`copy` the first attempt is a stream copy, and on `CalledProcessError` the
codec is downgraded to `"aac"` with `AUDIO_BITRATE` and the encode is retried
once; for a transcode strategy there is a single encode attempt; any failing
final attempt hits `continue` (the stream is skipped, no entry). -/
def processAudioStream (o : AudioOutcome) (s : SourceStream) :
    List AudioAttempt × Option AudioEntry :=
  let idx := s.index
  let lang := (s.lang).getD "und"
  let audio_config := select_audio_codec s
  -- `bitrate = audio_config.get("bitrate", AUDIO_BITRATE)`: the dict always
  -- carries a "bitrate" key (possibly None), so the default is never taken.
  let bitrate := audio_config.bitrate
  if audio_config.codec = "copy" then
    if o.firstOk then
      ([{ codec := "copy", bitrate := none }], some (mkAudioEntry idx lang))
    else if o.secondOk then
      ([{ codec := "copy", bitrate := none },
        { codec := "aac", bitrate := some AUDIO_BITRATE }],
       some (mkAudioEntry idx lang))
    else
      ([{ codec := "copy", bitrate := none },
        { codec := "aac", bitrate := some AUDIO_BITRATE }], none)
  else
    if o.firstOk then
      ([{ codec := audio_config.codec, bitrate := bitrate }],
       some (mkAudioEntry idx lang))
    else
      ([{ codec := audio_config.codec, bitrate := bitrate }], none)

/-- `generate_audio_playlists(input_file, audio_root, streams)`: filter the
audio streams (discovery order preserved) and collect the entries of the
streams whose processing succeeds.  `env` gives the external outcomes for the
stream with a given container index. -/
def generate_audio_playlists (env : Nat → AudioOutcome)
    (streams : List SourceStream) : List AudioEntry :=
  (streams.filter (fun s => s.codec_type == "audio")).filterMap
    (fun s => (processAudioStream (env s.index) s).2)

/-- The bitmap subtitle codec set `UNSUPPORTED` of `extract_all_subs`
(`encode_hls_av1.py`). -/
def UNSUPPORTED : List String :=
  ["hdmv_pgs_subtitle", "dvd_subtitle", "xsub", "dvb_subtitle"]

/-- Outcomes of the external steps for one subtitle stream in
`extract_all_subs` of `encode_hls_av1.py`: `copyOk` is whether after the copy
attempt `tmp_srt` exists with non-zero size (the copy attempt's
`CalledProcessError` itself is swallowed; only the file check matters),
`forcedOk` whether the forced `-c:s srt` extraction succeeds, `vttOk` whether
the SRT-to-VTT conversion succeeds. -/
structure SubOutcome where
  copyOk : Bool
  forcedOk : Bool
  vttOk : Bool
deriving DecidableEq

/-- One entry of the list returned by `extract_all_subs`. -/
structure SubEntry where
  index : Nat
  path : String
  lang : String
  name : String
deriving DecidableEq

/-- Loop body of `extract_all_subs` (`encode_hls_av1.py`) for one subtitle
stream: skip bitmap codecs outright; otherwise attempt copy, fall back to a
forced SRT extraction when the copy produced no usable file, skip on forced
failure; finally convert to VTT, skip on conversion failure. -/
def extractOneSub (o : SubOutcome) (s : SourceStream) : Option SubEntry :=
  let lang := (s.lang).getD ""
  let title := (s.title).getD ""
  if s.codec_name ∈ UNSUPPORTED then none
  else
    let fname := "sub_" ++ toString s.index
      ++ (if lang ≠ "" then "_" ++ sanitize lang else "")
      ++ (if title ≠ "" then "_" ++ sanitize title else "")
    if o.copyOk ∨ o.forcedOk then
      if o.vttOk then
        some { index := s.index
               path := "subtitles/" ++ fname ++ ".vtt"
               lang := lang
               name := if title ≠ "" then title else fname }
      else none
    else none

/-- `extract_all_subs(input_file, out_sub_dir, streams)` of
`encode_hls_av1.py`: the subtitle streams in discovery order, each through
`extractOneSub`. -/
def extract_all_subs (env : Nat → SubOutcome)
    (streams : List SourceStream) : List SubEntry :=
  (streams.filter (fun s => s.codec_type == "subtitle")).filterMap
    (fun s => extractOneSub (env s.index) s)

/-- One `#EXT-X-MEDIA` line written by `write_master_header`
(`encode_hls_av1.py`), with the attributes the source writes:
`defaultAttr`/`autoselectAttr` are the literal `"YES"`/`"NO"` values,
`forcedAttr` is `some "NO"` on subtitle lines and absent on audio lines,
`uri` the path written (relative to the master's directory). -/
structure MediaLine where
  mediaType : String
  name : String
  lang : String
  defaultAttr : String
  autoselectAttr : String
  forcedAttr : Option String
  uri : String
deriving DecidableEq

/-- The audio line written for the entry at position `idx` of the
`enumerate(audio_entries)` loop: `DEFAULT`/`AUTOSELECT` are `YES` exactly when
`idx == 0`. -/
def mkAudioLine (idx : Nat) (a : AudioEntry) : MediaLine :=
  { mediaType := "AUDIO"
    name := a.name
    lang := a.lang
    defaultAttr := if idx == 0 then "YES" else "NO"
    autoselectAttr := if idx == 0 then "YES" else "NO"
    forcedAttr := none
    uri := a.playlist }

/-- The `for idx, a in enumerate(audio_entries)` loop of
`write_master_header`, with the running `enumerate` counter made explicit. -/
def audioLines (idx : Nat) : List AudioEntry → List MediaLine
  | [] => []
  | a :: as => mkAudioLine idx a :: audioLines (idx + 1) as

/-- The subtitle line written by `write_master_header` for one entry. -/
def mkSubLine (s : SubEntry) : MediaLine :=
  { mediaType := "SUBTITLES"
    name := s.name
    lang := s.lang
    defaultAttr := "NO"
    autoselectAttr := "NO"
    forcedAttr := some "NO"
    uri := s.path }

/-- `write_master_header(master_path, audio_entries, subtitle_entries)` of
`encode_hls_av1.py`, as the ordered list of `#EXT-X-MEDIA` lines it writes
after the `#EXTM3U` preamble: all audio lines first (first one default), then
all subtitle lines (never default). -/
def write_master_header (audio_entries : List AudioEntry)
    (subtitle_entries : List SubEntry) : List MediaLine :=
  audioLines 0 audio_entries ++ subtitle_entries.map mkSubLine

/-- `int(bitrate.replace("k", "")) * 1000`. -/
def bandwidthOfBitrate (bitrate : String) : Nat :=
  (((bitrate.replace "k" "").toNat?).getD 0) * 1000

/-- The dict returned by `encode_video_quality` for one successful rung
(the pieces `append_master_video` consumes, plus the target width driving the
rung for order statements). -/
structure VideoEntry where
  label : String
  target_w : Nat
  resolution : Nat × Nat
  bandwidth : Nat
deriving DecidableEq

/-- The entry produced by a successful `encode_video_quality` call. -/
def videoEntryFor (src_w src_h : Nat) (label : String) (target_w : Nat)
    (bitrate : String) : VideoEntry :=
  { label := label
    target_w := target_w
    resolution := compute_scaled_size_from_width src_w src_h target_w
    bandwidth := bandwidthOfBitrate bitrate }

/-- The video loop of `main` (`encode_hls_av1.py`): iterate the planned rungs
in ascending target order; a failing encode (`except Exception: continue`) is
skipped, a successful one is appended to the master.  `env label` is whether
the external encode for that rung succeeds; `br` is the bitrate lookup
(`BITRATES[label]`). -/
def encodeLadderVideos (env : String → Bool) (br : String → String)
    (rungs : List (String × Nat)) (src_w src_h : Nat) : List VideoEntry :=
  (planLadder rungs src_w).filterMap fun r =>
    if env r.1 then some (videoEntryFor src_w src_h r.1 r.2 (br r.1)) else none

/-- The values displayed by one progress update inside
`run_ffmpeg_with_progress`. -/
structure ProgressSample where
  pct : ℚ
  speed : ℚ
  eta : ℚ
deriving DecidableEq

/-- The per-line computation of `run_ffmpeg_with_progress`
(`encode_hls_av1.py`) on a recognized `out_time_ms=N` line, in exact
arithmetic: `current_time = N / 1_000_000`;
`pct = min(100, current/total*100)` when `total_duration` is truthy and
positive, else `0`; `speed = current/elapsed` when the wall-clock elapsed is
positive, else `0`; `remaining = (total-current)/speed` when `total_duration`
is truthy and `speed > 0`, else `0`, clamped below at `0`. -/
def progressUpdate (out_time_ms : Nat) (total_duration wall_elapsed : ℚ) :
    ProgressSample :=
  let current_time : ℚ := (out_time_ms : ℚ) / 1000000
  let pct := if total_duration ≠ 0 ∧ 0 < total_duration then
      min 100 (current_time / total_duration * 100) else 0
  let speed := if 0 < wall_elapsed then current_time / wall_elapsed else 0
  let remaining := if total_duration ≠ 0 ∧ 0 < speed then
      (total_duration - current_time) / speed else 0
  let remaining2 := if remaining < 0 then 0 else remaining
  { pct := pct, speed := speed, eta := remaining2 }

/-- Decimal value of a digit string, as Python `int` reads a `\d+` group. -/
def digitsToNat (cs : List Char) : Nat :=
  cs.foldl (fun acc c => acc * 10 + (c.toNat - 48)) 0

/-- Recognition of a progress line, after `line.strip()`: the regex
`out_time_ms=(\d+)` matched at the start of the line (`re.match`), yielding
the greedily-taken leading digit group (at least one digit; trailing
non-digits do not block the match). -/
def parseOutTime (line : String) : Option Nat :=
  let cs := line.toList
  if cs.take 12 = "out_time_ms=".toList then
    let digits := (cs.drop 12).takeWhile Char.isDigit
    if digits ≠ [] then some (digitsToNat digits) else none
  else none

/-- `get_video_resolution(streams)`: the width/height of the first video
stream; the source raises `RuntimeError` when there is none (modelled as
`none`). -/
def get_video_resolution (streams : List SourceStream) : Option (Nat × Nat) :=
  match streams.find? (fun s => s.codec_type == "video") with
  | some s => some (s.width, s.height)
  | none => none

/-- The ways one input's pipeline aborts in `main` (`encode_hls_av1.py`):
`ffprobe_streams` raising (`subprocess.run(..., check=True)`), or
`get_video_resolution` raising `RuntimeError`. -/
inductive InputError where
  | probeFailure
  | noVideoStream
deriving DecidableEq

/-- External outcomes for every operation of one input's pipeline. -/
structure PipelineEnv where
  subOut : Nat → SubOutcome
  audioOut : Nat → AudioOutcome
  videoOk : String → Bool

/-- Everything one successful input run produces. -/
structure InputResult where
  subs : List SubEntry
  audioEntries : List AudioEntry
  header : List MediaLine
  videos : List VideoEntry
deriving DecidableEq

/-- Loop body of `main` (`encode_hls_av1.py`) for one input file: probe
(fatal on failure), find the video resolution (fatal when absent), then
subtitles, audio, master header, and the video ladder.  The per-track and
per-rung failures inside the later steps are contained by their own handlers
and never escape. -/
def processInput (penv : PipelineEnv) (probe : Option (List SourceStream)) :
    Except InputError InputResult :=
  match probe with
  | none => .error .probeFailure
  | some streams =>
    match get_video_resolution streams with
    | none => .error .noVideoStream
    | some wh =>
      let subs := extract_all_subs penv.subOut streams
      let audioEntries := generate_audio_playlists penv.audioOut streams
      let header := write_master_header audioEntries subs
      let videos := encodeLadderVideos penv.videoOk bitrateOfLabel LADDER wh.1 wh.2
      .ok { subs := subs, audioEntries := audioEntries,
            header := header, videos := videos }

/-- The external world of a batch run: per input id, the probe result and the
pipeline outcomes. -/
structure BatchEnv where
  probe : Nat → Option (List SourceStream)
  penv : Nat → PipelineEnv

/-- The `for file in input_files` loop of `main` (`encode_hls_av1.py`).
There is no `try`/`except` around the loop body, so an exception raised while
processing one input propagates and terminates the loop: inputs after a
fatally-failing one are never reached. -/
def runBatch (benv : BatchEnv) : List Nat → Except InputError (List InputResult)
  | [] => .ok []
  | i :: is =>
    match processInput (benv.penv i) (benv.probe i) with
    | .error e => .error e
    | .ok r =>
      match runBatch benv is with
      | .error e => .error e
      | .ok rs => .ok (r :: rs)

/-- One entry of the list returned by `extract_all_subs` of `script.py`
(note: `index` is the `enumerate` position among subtitle streams there, not
the container index). -/
structure ScriptSubEntry where
  index : Nat
  path : String
  lang : String
  name : String
deriving DecidableEq

/-- The entry `script.py`'s `extract_all_subs` appends for the `i`-th subtitle
stream. -/
def mkScriptSubEntry (i : Nat) (s : SourceStream) : ScriptSubEntry :=
  let lang := (s.lang).getD ""
  let title := (s.title).getD ""
  let fname := "sub_" ++ toString i
    ++ (if lang ≠ "" then "_" ++ lang else "")
    ++ (if title ≠ "" then "_" ++ sanitize title else "")
  { index := i
    path := "subtitles/" ++ fname ++ ".vtt"
    lang := lang
    name := if title ≠ "" then title else fname }

/-- Recursion of `script.py`'s `extract_all_subs` over the enumerated subtitle
streams: each stream is converted to WebVTT by one ffmpeg call run through
`run(cmd)` with `check=True`; there is no bitmap-codec guard and no handler,
so a failing conversion raises `CalledProcessError` and aborts the whole run
(modelled as `.error ()`); a succeeding one appends its entry. -/
def scriptExtractGo (convOk : Nat → Bool) :
    Nat → List SourceStream → Except Unit (List ScriptSubEntry)
  | _, [] => .ok []
  | i, s :: ss =>
    if convOk i then
      match scriptExtractGo convOk (i + 1) ss with
      | .ok rest => .ok (mkScriptSubEntry i s :: rest)
      | .error e => .error e
    else .error ()

/-- `extract_all_subs(input_file, out_sub_dir, streams)` of `script.py`:
filter the subtitle streams, then convert each in turn.  `convOk i` is whether
the external WebVTT conversion of the `i`-th subtitle stream succeeds. -/
def script_extract_all_subs (convOk : Nat → Bool)
    (streams : List SourceStream) : Except Unit (List ScriptSubEntry) :=
  scriptExtractGo convOk 0 (streams.filter (fun s => s.codec_type == "subtitle"))

/-- Concrete video stream (1920x1080 H.264) used in concrete runs. -/
def videoStreamC : SourceStream :=
  { index := 0, codec_type := "video", codec_name := "h264",
    lang := none, title := none, width := 1920, height := 1080 }

/-- Concrete audio stream #1: Opus (transcode strategy), container index 1. -/
def opusStreamC : SourceStream :=
  { index := 1, codec_type := "audio", codec_name := "opus",
    lang := some "eng", title := none, width := 0, height := 0 }

/-- Concrete audio stream #2: AAC (copy strategy), container index 2. -/
def aacStreamC : SourceStream :=
  { index := 2, codec_type := "audio", codec_name := "aac",
    lang := some "fre", title := none, width := 0, height := 0 }

/-- Concrete TrueHD audio stream (mixed-case codec name), container index 5. -/
def trueHdStreamC : SourceStream :=
  { index := 5, codec_type := "audio", codec_name := "TrueHD",
    lang := some "eng", title := none, width := 0, height := 0 }

/-- Concrete copy-strategy stream used to exercise the audio fallback cascade. -/
def copyStreamC : SourceStream :=
  { index := 7, codec_type := "audio", codec_name := "ac3",
    lang := none, title := none, width := 0, height := 0 }

/-- Concrete bitmap (PGS) subtitle stream. -/
def pgsStreamC : SourceStream :=
  { index := 3, codec_type := "subtitle", codec_name := "hdmv_pgs_subtitle",
    lang := some "eng", title := none, width := 0, height := 0 }

/-- Audio outcomes where the stream with container index 1 fails every ffmpeg
attempt and every other stream succeeds. -/
def envFirstAudioFails : Nat → AudioOutcome :=
  fun i => if i = 1 then { firstOk := false, secondOk := false }
           else { firstOk := true, secondOk := true }

/-- Audio outcomes where every attempt succeeds. -/
def envAudioAllOk : Nat → AudioOutcome :=
  fun _ => { firstOk := true, secondOk := true }

/-- Audio outcomes where every attempt fails. -/
def envAudioAllFail : Nat → AudioOutcome :=
  fun _ => { firstOk := false, secondOk := false }

/-- Probe result with one video and two audio streams, the first audio stream
being the one whose ffmpeg attempts fail under `envFirstAudioFails`. -/
def streamsTwoAudioC : List SourceStream := [videoStreamC, opusStreamC, aacStreamC]

/-- Pipeline environment in which every external operation succeeds. -/
def penvAllOk : PipelineEnv :=
  { subOut := fun _ => { copyOk := true, forcedOk := true, vttOk := true }
    audioOut := envAudioAllOk
    videoOk := fun _ => true }

/-- Batch environment: the probe of input 0 fails, every later input probes to
a single healthy 1920x1080 video stream, and all its operations succeed. -/
def benvProbeFailC : BatchEnv :=
  { probe := fun i => if i = 0 then none else some [videoStreamC]
    penv := fun _ => penvAllOk }

theorem mem_insertRung (r x : String × Nat) (l : List (String × Nat)) :
    x ∈ insertRung r l ↔ x = r ∨ x ∈ l := by
  induction l with
  | nil => simp [insertRung]
  | cons a as ih =>
    simp only [insertRung]
    by_cases h : r.2 ≤ a.2
    · rw [if_pos h]; simp
    · rw [if_neg h]; simp [ih]; tauto

theorem pairwise_insertRung (r : String × Nat) (l : List (String × Nat))
    (hl : l.Pairwise (fun a b => a.2 ≤ b.2)) :
    (insertRung r l).Pairwise (fun a b => a.2 ≤ b.2) := by
  induction l with
  | nil => simp [insertRung]
  | cons a as ih =>
    rw [List.pairwise_cons] at hl
    simp only [insertRung]
    by_cases h : r.2 ≤ a.2
    · rw [if_pos h]
      refine List.Pairwise.cons ?_ (List.Pairwise.cons hl.1 hl.2)
      intro b hb
      rcases List.mem_cons.mp hb with hba | hbas
      · subst hba; exact h
      · exact le_trans h (hl.1 b hbas)
    · rw [if_neg h]
      refine List.Pairwise.cons ?_ (ih hl.2)
      intro b hb
      rcases (mem_insertRung r b as).mp hb with hbr | hbas
      · subst hbr; omega
      · exact hl.1 b hbas

theorem pairwise_sortRungs (l : List (String × Nat)) :
    (sortRungs l).Pairwise (fun a b => a.2 ≤ b.2) := by
  induction l with
  | nil => simp [sortRungs]
  | cons a as ih => exact pairwise_insertRung a (sortRungs as) ih

theorem filterMap_head_provenance {α β : Type} (f : α → Option β) :
    ∀ (l : List α) (b : β) (bs : List β), l.filterMap f = b :: bs →
    ∃ l1 x l2, l = l1 ++ x :: l2 ∧ (∀ y ∈ l1, f y = none) ∧ f x = some b := by
  intro l
  induction l with
  | nil => intro b bs h; simp [List.filterMap_nil] at h
  | cons a as ih =>
    intro b bs h
    cases ha : f a with
    | none =>
      rw [List.filterMap_cons_none ha] at h
      obtain ⟨l1, x, l2, hdecomp, hnone, hx⟩ := ih b bs h
      exact ⟨a :: l1, x, l2, by rw [hdecomp]; rfl,
        fun y hy => by
          rcases List.mem_cons.mp hy with hya | hyl
          · subst hya; exact ha
          · exact hnone y hyl, hx⟩
    | some b0 =>
      rw [List.filterMap_cons_some ha] at h
      injection h with h1 h2
      exact ⟨[], a, as, rfl, by simp, by rw [ha, h1]⟩

theorem audioLines_mediaType (entries : List AudioEntry) :
    ∀ (i : Nat), ∀ l ∈ audioLines i entries, l.mediaType = "AUDIO" := by
  induction entries with
  | nil => intro i l hl; simp [audioLines] at hl
  | cons a as ih =>
    intro i l hl
    rcases List.mem_cons.mp hl with h | h
    · subst h; rfl
    · exact ih (i + 1) l h

theorem audioLines_pos_not_default (entries : List AudioEntry) :
    ∀ (i : Nat), i ≠ 0 → ∀ l ∈ audioLines i entries,
    l.defaultAttr = "NO" ∧ l.autoselectAttr = "NO" := by
  induction entries with
  | nil => intro i hi l hl; simp [audioLines] at hl
  | cons a as ih =>
    intro i hi l hl
    rcases List.mem_cons.mp hl with h | h
    · subst h
      have : (i == 0) = false := by simpa using hi
      constructor <;> simp [mkAudioLine, this]
    · exact ih (i + 1) (by omega) l h

theorem header_audio_filter (entries : List AudioEntry) (subs : List SubEntry) :
    (write_master_header entries subs).filter (fun l => l.mediaType == "AUDIO")
      = audioLines 0 entries := by
  unfold write_master_header
  rw [List.filter_append]
  have h1 : (audioLines 0 entries).filter (fun l => l.mediaType == "AUDIO")
      = audioLines 0 entries := by
    apply List.filter_eq_self.mpr
    intro l hl
    simpa using audioLines_mediaType entries 0 l hl
  have h2 : (subs.map mkSubLine).filter (fun l => l.mediaType == "AUDIO") = [] := by
    apply List.filter_eq_nil_iff.mpr
    intro l hl
    obtain ⟨s, _, hs⟩ := List.mem_map.mp hl
    subst hs
    simp [mkSubLine]
  rw [h1, h2, List.append_nil]

/-- C2 counterexample: with an odd-height source whose width coincides with a
configured rung's target width (here a 1920x1079 source and the 1080p rung of
`LADDER`), the rung is retained by the planner, yet the computed companion
dimension is the odd source height passed through unchanged. -/
theorem evenness_boundary_counterexample :
    ("1080p", 1920) ∈ planLadder LADDER 1920
    ∧ compute_scaled_size_from_width 1920 1079 1920 = (1920, 1079)
    ∧ 1079 % 2 = 1 := by
  refine ⟨by decide, rfl, rfl⟩

/-- C2 (amended): for every rung whose target width is strictly below the
source width, the companion dimension computed by
`compute_scaled_size_from_width` is even; and the companion computed by
`script.py`'s `compute_scaled_width` is even for all inputs.  (At
`target_w = src_w`, retained by the planner, `compute_scaled_size_from_width`
passes the source height through unchanged, which is the counterexample.) -/
theorem companion_even_below_source (src_w src_h target_w target_h : Nat)
    (h : target_w < src_w) :
    (compute_scaled_size_from_width src_w src_h target_w).2 % 2 = 0
    ∧ compute_scaled_width src_w src_h target_h % 2 = 0 := by
  constructor
  · simp only [compute_scaled_size_from_width, if_neg (by omega : ¬ src_w ≤ target_w)]
    split <;> omega
  · simp only [compute_scaled_width]
    split <;> omega

/-- Witness for `companion_even_below_source` at a concrete retained rung. -/
theorem companion_even_below_source_witness :
    (compute_scaled_size_from_width 1920 1080 1280).2 % 2 = 0
    ∧ compute_scaled_width 1920 1080 720 % 2 = 0 :=
  companion_even_below_source 1920 1080 1280 720 (by decide)

/-- C3 counterexample: for the retained rung with target width 717 on a
1024x7 source (the 1024 width makes the source's double-precision ratio
computation exact), the code truncates `7 * 717 / 1024 = 4.901...` to 4 and
keeps it (even), while the spec's formula rounds to 5 and bumps to 6. -/
theorem companion_formula_counterexample :
    ("480p", 717) ∈ planLadder [("480p", 717)] 1024
    ∧ (compute_scaled_size_from_width 1024 7 717).2 = 4
    ∧ specCompanionDim 1024 7 717 = 6 := by
  refine ⟨by decide, rfl, by norm_num [specCompanionDim, roundHalfEven]⟩

/-- C3 (amended): for a retained rung with target width strictly below the
source width, `encode_hls_av1.py` computes the companion as the TRUNCATED
quotient `int(src_h * target_w / src_w)` rounded up to the nearest even
integer (characterized here: even, and within `[v, v+1]` of the truncated
value `v`), not as the nearest-integer rounding the spec states; `script.py`'s
`compute_scaled_width` does match the spec formula: round-half-to-even of the
exact quotient, rounded up to the nearest even integer (even, within
`[r, r+1]` of the rounded value `r`). -/
theorem companion_characterization (src_w src_h target_w src_w2 src_h2 target_h : Nat)
    (h : target_w < src_w) :
    ((compute_scaled_size_from_width src_w src_h target_w).2 % 2 = 0
      ∧ src_h * target_w / src_w ≤ (compute_scaled_size_from_width src_w src_h target_w).2
      ∧ (compute_scaled_size_from_width src_w src_h target_w).2 ≤ src_h * target_w / src_w + 1)
    ∧ (compute_scaled_width src_w2 src_h2 target_h % 2 = 0
      ∧ roundHalfEven (((target_h * src_w2 : Nat) : ℚ) / (src_h2 : ℚ))
          ≤ compute_scaled_width src_w2 src_h2 target_h
      ∧ compute_scaled_width src_w2 src_h2 target_h
          ≤ roundHalfEven (((target_h * src_w2 : Nat) : ℚ) / (src_h2 : ℚ)) + 1) := by
  constructor
  · simp only [compute_scaled_size_from_width, if_neg (by omega : ¬ src_w ≤ target_w)]
    split <;> omega
  · simp only [compute_scaled_width]
    split <;> omega

/-- Witness for `companion_characterization` at concrete dimensions. -/
theorem companion_characterization_witness :
    ((compute_scaled_size_from_width 1024 7 717).2 % 2 = 0
      ∧ 7 * 717 / 1024 ≤ (compute_scaled_size_from_width 1024 7 717).2
      ∧ (compute_scaled_size_from_width 1024 7 717).2 ≤ 7 * 717 / 1024 + 1)
    ∧ (compute_scaled_width 1920 1080 720 % 2 = 0
      ∧ roundHalfEven (((720 * 1920 : Nat) : ℚ) / (1080 : ℚ))
          ≤ compute_scaled_width 1920 1080 720
      ∧ compute_scaled_width 1920 1080 720
          ≤ roundHalfEven (((720 * 1920 : Nat) : ℚ) / (1080 : ℚ)) + 1) :=
  companion_characterization 1024 7 717 1920 1080 720 (by decide)

/-- C10: whenever the target width is at least the source width,
`compute_scaled_size_from_width` returns the source dimensions unchanged; in
particular the even-dimension adjustment is not applied, so an odd source
height passes through as-is. -/
theorem passthrough_at_boundary (src_w src_h target_w : Nat)
    (h : src_w ≤ target_w) :
    compute_scaled_size_from_width src_w src_h target_w = (src_w, src_h)
    ∧ (src_h % 2 = 1 → (compute_scaled_size_from_width src_w src_h target_w).2 % 2 = 1) := by
  have heq : compute_scaled_size_from_width src_w src_h target_w = (src_w, src_h) := by
    simp only [compute_scaled_size_from_width, if_pos h]
  exact ⟨heq, fun ho => by rw [heq]; exact ho⟩

/-- Witness for `passthrough_at_boundary`: the odd height 1079 survives when
the target width equals the source width. -/
theorem passthrough_at_boundary_witness :
    compute_scaled_size_from_width 1920 1079 1920 = (1920, 1079)
    ∧ (1079 % 2 = 1 → (compute_scaled_size_from_width 1920 1079 1920).2 % 2 = 1) :=
  passthrough_at_boundary 1920 1079 1920 (by decide)

/-- C5: the audio codec decision is a function of the lower-cased source codec
name: aac/ac3/eac3 give a direct copy with no bitrate, truehd gives an eac3
transcode at 1536k, the dts family gives eac3 at 896k, and every other codec
name gives eac3 at 640k. -/
theorem audio_codec_decision_table (s : SourceStream) :
    ((pyLower s.codec_name = "aac" ∨ pyLower s.codec_name = "ac3"
        ∨ pyLower s.codec_name = "eac3") →
      select_audio_codec s = { codec := "copy", bitrate := none })
    ∧ (pyLower s.codec_name = "truehd" →
      select_audio_codec s = { codec := "eac3", bitrate := some "1536k" })
    ∧ ((pyLower s.codec_name = "dts" ∨ pyLower s.codec_name = "dts_hd_ma"
        ∨ pyLower s.codec_name = "dts-ma" ∨ pyLower s.codec_name = "dts-hd") →
      select_audio_codec s = { codec := "eac3", bitrate := some "896k" })
    ∧ ((¬ (pyLower s.codec_name = "aac" ∨ pyLower s.codec_name = "ac3"
          ∨ pyLower s.codec_name = "eac3")
        ∧ pyLower s.codec_name ≠ "truehd"
        ∧ ¬ (pyLower s.codec_name = "dts" ∨ pyLower s.codec_name = "dts_hd_ma"
          ∨ pyLower s.codec_name = "dts-ma" ∨ pyLower s.codec_name = "dts-hd")) →
      select_audio_codec s = { codec := "eac3", bitrate := some "640k" }) := by
  refine ⟨?_, ?_, ?_, ?_⟩
  · intro h
    simp only [select_audio_codec, if_pos h]
  · intro h
    have h1 : ¬ (pyLower s.codec_name = "aac" ∨ pyLower s.codec_name = "ac3"
        ∨ pyLower s.codec_name = "eac3") := by
      rw [h]; decide
    simp only [select_audio_codec, if_neg h1, if_pos h]
  · intro h
    have h1 : ¬ (pyLower s.codec_name = "aac" ∨ pyLower s.codec_name = "ac3"
        ∨ pyLower s.codec_name = "eac3") := by
      rcases h with h | h | h | h <;> rw [h] <;> decide
    have h2 : pyLower s.codec_name ≠ "truehd" := by
      rcases h with h | h | h | h <;> rw [h] <;> decide
    simp only [select_audio_codec, if_neg h1, if_neg h2, if_pos h]
  · intro h
    simp only [select_audio_codec, if_neg h.1, if_neg h.2.1, if_neg h.2.2]

/-- Witness for `audio_codec_decision_table` on a mixed-case TrueHD stream. -/
theorem audio_codec_decision_table_witness :
    select_audio_codec trueHdStreamC = { codec := "eac3", bitrate := some "1536k" } :=
  (audio_codec_decision_table trueHdStreamC).2.1 (by decide)

/-- C6: for an audio stream whose chosen strategy is direct copy, when the
copy attempt fails the exact sequence of ffmpeg invocations is the copy
followed by one single AAC retry at the configured `AUDIO_BITRATE`; the retry
succeeding yields a rendition, the retry failing drops the track: no entry is
produced and the rendition set consumed by the manifest (and hence the
written header) is as if the stream were absent. -/
theorem audio_copy_fallback_cascade (env : Nat → AudioOutcome) (s : SourceStream)
    (l1 l2 : List SourceStream)
    (hcopy : (select_audio_codec s).codec = "copy")
    (hfail : (env s.index).firstOk = false) :
    (processAudioStream (env s.index) s).1
      = [{ codec := "copy", bitrate := none },
         { codec := "aac", bitrate := some AUDIO_BITRATE }]
    ∧ ((env s.index).secondOk = true →
        ((processAudioStream (env s.index) s).2).isSome = true)
    ∧ ((env s.index).secondOk = false →
        (processAudioStream (env s.index) s).2 = none
        ∧ generate_audio_playlists env (l1 ++ s :: l2)
            = generate_audio_playlists env (l1 ++ l2)
        ∧ ∀ subs, write_master_header (generate_audio_playlists env (l1 ++ s :: l2)) subs
            = write_master_header (generate_audio_playlists env (l1 ++ l2)) subs) := by
  refine ⟨?_, ?_, ?_⟩
  · cases hs : (env s.index).secondOk <;>
      simp [processAudioStream, hcopy, hfail, hs]
  · intro hs
    simp [processAudioStream, hcopy, hfail, hs]
  · intro hs
    have hnone : (processAudioStream (env s.index) s).2 = none := by
      simp [processAudioStream, hcopy, hfail, hs]
    have hgen : generate_audio_playlists env (l1 ++ s :: l2)
        = generate_audio_playlists env (l1 ++ l2) := by
      simp only [generate_audio_playlists, List.filter_append, List.filterMap_append]
      congr 1
      cases hc : (s.codec_type == "audio") with
      | true => simp [List.filter_cons, hc, hnone]
      | false => simp [List.filter_cons, hc]
    exact ⟨hnone, hgen, fun subs => by rw [hgen]⟩

/-- Witness for `audio_copy_fallback_cascade`: an AC3 stream (copy strategy)
whose copy and AAC retry both fail is dropped. -/
theorem audio_copy_fallback_cascade_witness :
    (processAudioStream (envAudioAllFail copyStreamC.index) copyStreamC).1
      = [{ codec := "copy", bitrate := none },
         { codec := "aac", bitrate := some AUDIO_BITRATE }]
    ∧ ((envAudioAllFail copyStreamC.index).secondOk = true →
        ((processAudioStream (envAudioAllFail copyStreamC.index) copyStreamC).2).isSome = true)
    ∧ ((envAudioAllFail copyStreamC.index).secondOk = false →
        (processAudioStream (envAudioAllFail copyStreamC.index) copyStreamC).2 = none
        ∧ generate_audio_playlists envAudioAllFail ([] ++ copyStreamC :: [])
            = generate_audio_playlists envAudioAllFail ([] ++ [])
        ∧ ∀ subs, write_master_header
              (generate_audio_playlists envAudioAllFail ([] ++ copyStreamC :: [])) subs
            = write_master_header (generate_audio_playlists envAudioAllFail ([] ++ [])) subs) :=
  audio_copy_fallback_cascade envAudioAllFail copyStreamC [] [] (by decide) (by decide)

/-- C7 counterexample: `script.py`'s `extract_all_subs` has no bitmap-codec
guard: on a PGS subtitle stream it attempts the WebVTT conversion, and the
conversion operation reporting success yields a subtitle rendition entry for
the bitmap stream. -/
theorem bitmap_sub_rendition_counterexample :
    script_extract_all_subs (fun _ => true) [pgsStreamC]
      = Except.ok [{ index := 0, path := "subtitles/sub_0_eng.vtt",
                     lang := "eng", name := "sub_0_eng" }] := by
  rfl

/-- C7 (amended): in `encode_hls_av1.py`, a subtitle stream whose codec is in
the bitmap set `UNSUPPORTED` is skipped before any external call: it never
produces a rendition, its presence in the stream list does not change the
extraction result, and the master header is unchanged; `script.py`, by
contrast, guards nothing: any failing conversion aborts its whole run. -/
theorem bitmap_sub_skipped (o : SubOutcome) (s : SourceStream)
    (hb : s.codec_name ∈ UNSUPPORTED) :
    extractOneSub o s = none
    ∧ (∀ (env : Nat → SubOutcome) (l1 l2 : List SourceStream),
        extract_all_subs env (l1 ++ s :: l2) = extract_all_subs env (l1 ++ l2)
        ∧ ∀ entries, write_master_header entries (extract_all_subs env (l1 ++ s :: l2))
            = write_master_header entries (extract_all_subs env (l1 ++ l2)))
    ∧ (∀ (convOk : Nat → Bool) (i : Nat) (s2 : SourceStream) (rest : List SourceStream),
        convOk i = false → scriptExtractGo convOk i (s2 :: rest) = Except.error ()) := by
  have hone : ∀ o2 : SubOutcome, extractOneSub o2 s = none := by
    intro o2
    simp [extractOneSub, hb]
  refine ⟨hone o, ?_, ?_⟩
  · intro env l1 l2
    have hgen : extract_all_subs env (l1 ++ s :: l2) = extract_all_subs env (l1 ++ l2) := by
      simp only [extract_all_subs, List.filter_append, List.filterMap_append]
      congr 1
      cases hc : (s.codec_type == "subtitle") with
      | true => simp [List.filter_cons, hc, hone (env s.index)]
      | false => simp [List.filter_cons, hc]
    exact ⟨hgen, fun entries => by rw [hgen]⟩
  · intro convOk i s2 rest hfail
    simp [scriptExtractGo, hfail]

/-- Witness for `bitmap_sub_skipped` on the concrete PGS stream. -/
theorem bitmap_sub_skipped_witness :
    extractOneSub { copyOk := true, forcedOk := true, vttOk := true } pgsStreamC = none
    ∧ (∀ (env : Nat → SubOutcome) (l1 l2 : List SourceStream),
        extract_all_subs env (l1 ++ pgsStreamC :: l2) = extract_all_subs env (l1 ++ l2)
        ∧ ∀ entries, write_master_header entries (extract_all_subs env (l1 ++ pgsStreamC :: l2))
            = write_master_header entries (extract_all_subs env (l1 ++ l2)))
    ∧ (∀ (convOk : Nat → Bool) (i : Nat) (s2 : SourceStream) (rest : List SourceStream),
        convOk i = false → scriptExtractGo convOk i (s2 :: rest) = Except.error ()) :=
  bitmap_sub_skipped { copyOk := true, forcedOk := true, vttOk := true } pgsStreamC (by decide)

/-- C8: for any configured rung table and source dimensions, every rung the
planner retains has its target within the source width, every configured rung
whose target strictly exceeds the source width is excluded, the planned rungs
are in ascending target order, and the video entries actually emitted to the
master (the rungs whose encode succeeds) are in ascending target order too. -/
theorem ladder_plan_order (rungs : List (String × Nat)) (src_w src_h : Nat)
    (env : String → Bool) (br : String → String) :
    (∀ r ∈ planLadder rungs src_w, r.2 ≤ src_w)
    ∧ (∀ r ∈ rungs, src_w < r.2 → r ∉ planLadder rungs src_w)
    ∧ (planLadder rungs src_w).Pairwise (fun a b => a.2 ≤ b.2)
    ∧ ((encodeLadderVideos env br rungs src_w src_h).map
        VideoEntry.target_w).Pairwise (fun a b => a ≤ b) := by
  have hplan : (planLadder rungs src_w).Pairwise (fun a b => a.2 ≤ b.2) :=
    List.Pairwise.filter _ (pairwise_sortRungs rungs)
  refine ⟨?_, ?_, hplan, ?_⟩
  · intro r hr
    have := List.of_mem_filter hr
    simpa using this
  · intro r _ hlt hmem
    have := List.of_mem_filter hmem
    simp at this
    omega
  · rw [List.pairwise_map]
    refine List.Pairwise.filterMap _ ?_ hplan
    intro a a' hle b hb b' hb'
    cases ha : env a.1 <;> rw [ha] at hb <;> simp at hb
    cases ha' : env a'.1 <;> rw [ha'] at hb' <;> simp at hb'
    subst hb; subst hb'
    simpa [videoEntryFor] using hle

/-- Witness for `ladder_plan_order` at the concrete `LADDER` on a 1920x1080
source with every encode succeeding. -/
theorem ladder_plan_order_witness :
    (∀ r ∈ planLadder LADDER 1920, r.2 ≤ 1920)
    ∧ (∀ r ∈ LADDER, 1920 < r.2 → r ∉ planLadder LADDER 1920)
    ∧ (planLadder LADDER 1920).Pairwise (fun a b => a.2 ≤ b.2)
    ∧ ((encodeLadderVideos (fun _ => true) bitrateOfLabel LADDER 1920 1080).map
        VideoEntry.target_w).Pairwise (fun a b => a ≤ b) :=
  ladder_plan_order LADDER 1920 1080 (fun _ => true) bitrateOfLabel

/-- C9: on every recognized progress line, with non-negative wall-clock
elapsed time, the computed values satisfy the spec formulas:
`pct = clamp(current/total*100, 0, 100)` when a positive total duration is
known and `0` otherwise; `speed = current/wallClock` (with the convention
`x/0 = 0` matching the code's `elapsed > 0` guard); and
`eta = max(0, (total-current)/speed)` when `speed > 0` and `0` when
`speed ≤ 0`. -/
theorem progress_line_formulas (line : String) (ms : Nat) (total wall : ℚ)
    (_hline : parseOutTime line = some ms) (hwall : 0 ≤ wall) :
    (progressUpdate ms total wall).pct
      = (if 0 < total then max 0 (min 100 (((ms : ℚ) / 1000000) / total * 100)) else 0)
    ∧ (progressUpdate ms total wall).speed = ((ms : ℚ) / 1000000) / wall
    ∧ (progressUpdate ms total wall).eta
      = (if (progressUpdate ms total wall).speed ≤ 0 then 0
         else max 0 ((total - (ms : ℚ) / 1000000) / (progressUpdate ms total wall).speed)) := by
  have hcur : (0 : ℚ) ≤ (ms : ℚ) / 1000000 := by positivity
  have hspeed : (progressUpdate ms total wall).speed = ((ms : ℚ) / 1000000) / wall := by
    simp only [progressUpdate]
    by_cases hw : 0 < wall
    · rw [if_pos hw]
    · have hw0 : wall = 0 := le_antisymm (not_lt.mp hw) hwall
      rw [if_neg hw, hw0, div_zero]
  have hsp0 : 0 ≤ (progressUpdate ms total wall).speed := by
    rw [hspeed]; positivity
  refine ⟨?_, hspeed, ?_⟩
  · simp only [progressUpdate]
    by_cases ht : 0 < total
    · rw [if_pos ⟨ne_of_gt ht, ht⟩, if_pos ht]
      have hx : 0 ≤ ((ms : ℚ) / 1000000) / total * 100 := by positivity
      rw [max_eq_right (le_min (by norm_num) hx)]
    · rw [if_neg (fun hand => ht hand.2), if_neg ht]
  · have heta : (progressUpdate ms total wall).eta
        = (let rem := if total ≠ 0 ∧ 0 < (progressUpdate ms total wall).speed then
              (total - (ms : ℚ) / 1000000) / (progressUpdate ms total wall).speed else 0
           if rem < 0 then 0 else rem) := by
      simp only [progressUpdate]
    rw [heta]
    by_cases hle : (progressUpdate ms total wall).speed ≤ 0
    · have hz : (progressUpdate ms total wall).speed = 0 := le_antisymm hle hsp0
      rw [if_pos hle]
      simp [hz]
    · have hpos : 0 < (progressUpdate ms total wall).speed := lt_of_not_le hle
      rw [if_neg hle]
      by_cases ht0 : total = 0
      · have hneg : (total - (ms : ℚ) / 1000000) / (progressUpdate ms total wall).speed ≤ 0 := by
          apply div_nonpos_of_nonpos_of_nonneg
          · rw [ht0]; linarith
          · exact hsp0
        simp only [ht0, ne_eq, not_true_eq_false, false_and, if_false]
        rw [max_eq_left (by simpa [ht0] using hneg)]
        simp
      · simp only [ne_eq, ht0, not_false_eq_true, hpos, and_self, if_true, true_and]
        by_cases hr : (total - (ms : ℚ) / 1000000) / (progressUpdate ms total wall).speed < 0
        · rw [if_pos hr, max_eq_left (le_of_lt hr)]
        · rw [if_neg hr, max_eq_right (not_lt.mp hr)]

/-- Witness for `progress_line_formulas` on the recognized line
`out_time_ms=1500000` with a 3-second total duration and 1 second elapsed. -/
theorem progress_line_formulas_witness :
    (progressUpdate 1500000 3 1).pct
      = (if (0 : ℚ) < 3 then max 0 (min 100 (((1500000 : ℚ) / 1000000) / 3 * 100)) else 0)
    ∧ (progressUpdate 1500000 3 1).speed = ((1500000 : ℚ) / 1000000) / 1
    ∧ (progressUpdate 1500000 3 1).eta
      = (if (progressUpdate 1500000 3 1).speed ≤ 0 then 0
         else max 0 ((3 - (1500000 : ℚ) / 1000000) / (progressUpdate 1500000 3 1).speed)) :=
  progress_line_formulas "out_time_ms=1500000" 1500000 3 1 (by decide) (by norm_num)

/-- C4 (amended): for a non-empty rendition list produced by
`generate_audio_playlists`, the written header's audio section consists of one
line per rendition in order, exactly one of which carries
`DEFAULT=YES,AUTOSELECT=YES` - the line of the FIRST rendition in the list -
while every other audio line carries `DEFAULT=NO,AUTOSELECT=NO`; and that
first rendition is the one of the first audio stream (in discovery order)
whose processing succeeded, which is the first audio stream of the source
exactly when no earlier audio stream was dropped. -/
theorem default_audio_line_first_rendition (env : Nat → AudioOutcome)
    (streams : List SourceStream) (subs : List SubEntry)
    (e : AudioEntry) (es : List AudioEntry)
    (hgen : generate_audio_playlists env streams = e :: es) :
    ((write_master_header (e :: es) subs).filter (fun l => l.mediaType == "AUDIO"))
      = mkAudioLine 0 e :: audioLines 1 es
    ∧ (mkAudioLine 0 e).defaultAttr = "YES"
    ∧ (mkAudioLine 0 e).autoselectAttr = "YES"
    ∧ ((write_master_header (e :: es) subs).filter
        (fun l => l.mediaType == "AUDIO")).countP
        (fun l => l.defaultAttr == "YES" && l.autoselectAttr == "YES") = 1
    ∧ (∀ l ∈ audioLines 1 es, l.defaultAttr = "NO" ∧ l.autoselectAttr = "NO")
    ∧ (∃ l1 x l2, streams.filter (fun s => s.codec_type == "audio") = l1 ++ x :: l2
        ∧ (∀ y ∈ l1, (processAudioStream (env y.index) y).2 = none)
        ∧ (processAudioStream (env x.index) x).2 = some e) := by
  have hlines : (write_master_header (e :: es) subs).filter
      (fun l => l.mediaType == "AUDIO") = mkAudioLine 0 e :: audioLines 1 es := by
    rw [header_audio_filter]
    rfl
  have htail : ∀ l ∈ audioLines 1 es, l.defaultAttr = "NO" ∧ l.autoselectAttr = "NO" :=
    audioLines_pos_not_default es 1 (by omega)
  refine ⟨hlines, rfl, rfl, ?_, htail, ?_⟩
  · rw [hlines, List.countP_cons]
    have hzero : (audioLines 1 es).countP
        (fun l => l.defaultAttr == "YES" && l.autoselectAttr == "YES") = 0 := by
      apply List.countP_eq_zero.mpr
      intro l hl
      obtain ⟨hd, ha⟩ := htail l hl
      simp [hd, ha]
    rw [hzero]
    simp [mkAudioLine]
  · exact filterMap_head_provenance _ _ e es hgen

/-- C4 counterexample: in a source whose first audio stream (container index
1, Opus) fails both ffmpeg attempts and is dropped while the second audio
stream (container index 2, aac, French) succeeds, the header contains exactly
one audio line, with `DEFAULT=YES`: it references the rendition of the SECOND
source audio stream, whereas the first audio stream of the source in
discovery order is the dropped index-1 stream. -/
theorem default_audio_line_counterexample :
    (write_master_header (generate_audio_playlists envFirstAudioFails streamsTwoAudioC) []).filter
        (fun l => l.mediaType == "AUDIO")
      = [{ mediaType := "AUDIO", name := "Audio fre", lang := "fre",
           defaultAttr := "YES", autoselectAttr := "YES", forcedAttr := none,
           uri := "audio/audio_2_fre/audio_2_fre.m3u8" }]
    ∧ (streamsTwoAudioC.filter (fun s => s.codec_type == "audio")).head?
        = some opusStreamC
    ∧ opusStreamC.index = 1
    ∧ (generate_audio_playlists envFirstAudioFails streamsTwoAudioC).head?
        = some (mkAudioEntry 2 "fre") := by
  refine ⟨by decide, by decide, rfl, by decide⟩

/-- Witness for `default_audio_line_first_rendition`: a source whose only
audio stream is the aac stream with container index 2, all attempts
succeeding. -/
theorem default_audio_line_first_rendition_witness :
    ((write_master_header (mkAudioEntry 2 "fre" :: []) []).filter
        (fun l => l.mediaType == "AUDIO"))
      = mkAudioLine 0 (mkAudioEntry 2 "fre") :: audioLines 1 []
    ∧ (mkAudioLine 0 (mkAudioEntry 2 "fre")).defaultAttr = "YES"
    ∧ (mkAudioLine 0 (mkAudioEntry 2 "fre")).autoselectAttr = "YES"
    ∧ ((write_master_header (mkAudioEntry 2 "fre" :: []) []).filter
        (fun l => l.mediaType == "AUDIO")).countP
        (fun l => l.defaultAttr == "YES" && l.autoselectAttr == "YES") = 1
    ∧ (∀ l ∈ audioLines 1 [], l.defaultAttr = "NO" ∧ l.autoselectAttr = "NO")
    ∧ (∃ l1 x l2, ([videoStreamC, aacStreamC].filter
          (fun s => s.codec_type == "audio")) = l1 ++ x :: l2
        ∧ (∀ y ∈ l1, (processAudioStream (envAudioAllOk y.index) y).2 = none)
        ∧ (processAudioStream (envAudioAllOk x.index) x).2 = some (mkAudioEntry 2 "fre")) :=
  default_audio_line_first_rendition envAudioAllOk [videoStreamC, aacStreamC] []
    (mkAudioEntry 2 "fre") [] (by decide)

/-- C1 (amended): a fatal single-input failure (prober failure or absence of
any video stream) is NOT contained: since the batch loop of `main` has no
handler around the per-input body, the exception propagates and the whole
batch run aborts with that input's error, so sibling inputs after the failing
one are never processed - however many healthy inputs precede or follow it. -/
theorem batch_aborts_on_input_failure (benv : BatchEnv) (pre : List Nat)
    (i : Nat) (post : List Nat) (e : InputError)
    (hpre : ∀ j ∈ pre, (processInput (benv.penv j) (benv.probe j)).isOk = true)
    (hfail : processInput (benv.penv i) (benv.probe i) = .error e) :
    runBatch benv (pre ++ i :: post) = .error e := by
  induction pre with
  | nil =>
    simp only [List.nil_append, runBatch, hfail]
  | cons j js ih =>
    have hj := hpre j (by simp)
    cases hpj : processInput (benv.penv j) (benv.probe j) with
    | error e2 => rw [hpj] at hj; simp [Except.isOk, Except.toBool] at hj
    | ok r =>
      have hrest := ih (fun k hk => hpre k (by simp [hk]))
      simp only [List.cons_append, runBatch, hpj, List.append_eq, hrest]

/-- C1 counterexample: a two-input batch whose first input fails its probe
while the second input is perfectly healthy (`runBatch` on the second input
alone succeeds): the batch run aborts with the first input's probe failure
instead of proceeding to the sibling. -/
theorem batch_abort_counterexample :
    runBatch benvProbeFailC [0, 1] = Except.error InputError.probeFailure
    ∧ (runBatch benvProbeFailC [1]).isOk = true := by
  constructor
  · rfl
  · rfl

/-- Witness for `batch_aborts_on_input_failure`: the healthy input 1 precedes
the probe-failing input 0; the batch still aborts with the probe failure. -/
theorem batch_aborts_on_input_failure_witness :
    runBatch benvProbeFailC ([1] ++ 0 :: []) = Except.error InputError.probeFailure :=
  batch_aborts_on_input_failure benvProbeFailC [1] 0 [] InputError.probeFailure
    (by intro j hj; simp at hj; subst hj; rfl) (by rfl)
